import Mathlib

/-!
Verification development for the climbing-log-manager backend
(`src/backend/server.py`).  The Python source is shallowly embedded:
pure helpers become Lean functions, the Postgres-backed list query
becomes a relation on an explicit store (a list of rows in insertion
order), and fallible Python code (`try`/`except`) is modelled with
`Option`.  Machine integers do not matter here: Python integers are
unbounded, so `Nat`/`Int` are exact models.
-/

/- ### Python string primitives (ASCII fragment used by the data domain) -/

/-- Python `str.strip()` whitespace set (ASCII part). -/
def pyIsSpace (c : Char) : Bool :=
  c = ' ' || c = '\t' || c = '\n' || c = '\r' || c = '\x0b' || c = '\x0c'

/-- `str.strip()` on a character list. -/
def stripL (cs : List Char) : List Char :=
  ((cs.dropWhile pyIsSpace).reverse.dropWhile pyIsSpace).reverse

/-- `str.strip()`. -/
def pyStrip (s : String) : String := String.mk (stripL s.data)

/-- `str.lower()` on one character (ASCII letters; the data domain of the
    app is ASCII). -/
def lowerChar (c : Char) : Char :=
  if 65 ≤ c.toNat ∧ c.toNat ≤ 90 then Char.ofNat (c.toNat + 32) else c

/-- `str.upper()` on one character (ASCII letters). -/
def upperChar (c : Char) : Char :=
  if 97 ≤ c.toNat ∧ c.toNat ≤ 122 then Char.ofNat (c.toNat - 32) else c

/-- `str.lower()`. -/
def pyLower (s : String) : String := String.mk (s.data.map lowerChar)

/-- `str.upper()`. -/
def pyUpper (s : String) : String := String.mk (s.data.map upperChar)

/-- Digit run of a Python `int()` literal, underscores allowed between
    digits (CPython 3.6+).  `none` models `ValueError`. -/
def pyDigitsGo (acc : Nat) : List Char → Option Nat
  | [] => some acc
  | c :: rest =>
    if c.isDigit then pyDigitsGo (acc * 10 + (c.toNat - 48)) rest
    else if c = '_' then
      match rest with
      | c2 :: rest2 =>
        if c2.isDigit then pyDigitsGo (acc * 10 + (c2.toNat - 48)) rest2 else none
      | [] => none
    else none

/-- Nonempty digit run (first char must be a digit). -/
def pyDigits : List Char → Option Nat
  | c :: rest => if c.isDigit then pyDigitsGo (c.toNat - 48) rest else none
  | [] => none

/-- Python `int(s)` on a character list: surrounding whitespace stripped,
    optional sign, then digits.  `none` models the raised `ValueError`. -/
def pyIntL (cs : List Char) : Option Int :=
  match stripL cs with
  | '+' :: rest => (pyDigits rest).map Int.ofNat
  | '-' :: rest => (pyDigits rest).map (fun n => -(Int.ofNat n))
  | cs' => (pyDigits cs').map Int.ofNat

/-- Python `int(s)`. -/
def pyInt (s : String) : Option Int := pyIntL s.data

/-- Plain value of a digit string (helper for stating theorems). -/
def digitsVal (ds : List Char) : Nat :=
  ds.foldl (fun a c => a * 10 + (c.toNat - 48)) 0

/- ### Grade Codec (`_yds_key`, `_v_key`, `_grade_key`, server.py:53-86) -/

/-- `_yds_key` (server.py:53): strip + lower; require prefix `5.`; keep
    only the digits of the remainder and return `500 + int(digits)`.
    Any failure (`ValueError` on `int("")`) yields the sentinel `-1`.
    After the `startswith("5.")` guard, `s.split("5.", 1)[1]` is the
    remainder after the first occurrence, i.e. after the first two
    characters. -/
def _yds_key (g : String) : Int :=
  match (stripL g.data).map lowerChar with
  | '5' :: '.' :: rest =>
    match pyDigits (rest.filter Char.isDigit) with
    | some n => 500 + (n : Int)
    | none => -1
  | _ => -1

/-- `_v_key` (server.py:68): strip + upper; require prefix `V`; return
    `int(remainder)` (Python `int`, so signs / inner padding /
    underscores are accepted); sentinel `-1` on any exception. -/
def _v_key (g : String) : Int :=
  match (stripL g.data).map upperChar with
  | 'V' :: rest =>
    match pyIntL rest with
    | some n => n
    | none => -1
  | _ => -1

/-- `_grade_key` (server.py:81): dispatch on the scale name. -/
def _grade_key (grade_system : String) (grade : String) : Int :=
  if grade_system = "YDS" then _yds_key grade
  else if grade_system = "V" then _v_key grade
  else -1

/- ### Dates (`datetime.date`, used by the Validator) -/

/-- A calendar date as (year, month, day). -/
def Date3 := Nat × Nat × Nat
deriving DecidableEq, Repr

/-- Gregorian leap year (as `datetime` uses). -/
def isLeap (y : Nat) : Bool := y % 4 = 0 && (y % 100 ≠ 0 || y % 400 = 0)

/-- Days in a month. -/
def daysInMonth (y m : Nat) : Nat :=
  if m = 1 || m = 3 || m = 5 || m = 7 || m = 8 || m = 10 || m = 12 then 31
  else if m = 4 || m = 6 || m = 9 || m = 11 then 30
  else if isLeap y then 29 else 28

/-- Whether `datetime.date(y, m, d)` succeeds (its constructor raises
    otherwise; `MINYEAR = 1`, `MAXYEAR = 9999`). -/
def okDate (y m d : Int) : Bool :=
  1 ≤ y && y ≤ 9999 && 1 ≤ m && m ≤ 12 && 1 ≤ d &&
    d ≤ (daysInMonth y.toNat m.toNat : Int)

/-- Strict `<` on dates (lexicographic, as `datetime.date` compares). -/
def dateLtB (a b : Date3) : Bool :=
  a.1 < b.1 || (a.1 = b.1 && (a.2.1 < b.2.1 || (a.2.1 = b.2.1 && a.2.2 < b.2.2)))

/-- Non-strict date order. -/
def dateLeB (a b : Date3) : Bool := !(dateLtB b a)

/-- Python `"-"`-split of a character list (`str.split("-")`). -/
def splitDash : List Char → List (List Char)
  | [] => [[]]
  | c :: rest =>
    if c = '-' then [] :: splitDash rest
    else
      match splitDash rest with
      | h :: t => (c :: h) :: t
      | [] => [[c]]

/-- `y, m, d = map(int, date_str.split("-")); date(y, m, d)`
    (server.py:188-189): `none` models the caught exception. -/
def parse_date (s : String) : Option Date3 :=
  match splitDash s.data with
  | [ys, ms, ds] =>
    match pyIntL ys, pyIntL ms, pyIntL ds with
    | some y, some m, some d =>
      if okDate y m d then some (y.toNat, m.toNat, d.toNat) else none
    | _, _, _ => none
  | _ => none

/- ### Validator (`validate_payload`, server.py:177-226) -/

/-- The eight payload fields as parsed by `_parse_payload_from_request`
    (server.py:313-341): each is a (stripped) string. -/
structure Payload where
  date : String
  environment : String
  location : String
  routeName : String
  climbType : String
  gradeSystem : String
  grade : String
  progress : String
deriving DecidableEq, Repr

/-- Field/message pairs of the returned `errors` dict.  Each field name
    is assigned at most once by the source, so insertion order on a
    list is a faithful model of the Python dict. -/
def Errors := List (String × String)
deriving DecidableEq, Repr

/-- `validate_payload` (server.py:177-226), with `Date.today()` passed
    explicitly as `today`. -/
def validate_payload (today : Date3) (payload : Payload) : Errors :=
  let requiredFields : List (String × String) :=
    [("date", payload.date), ("environment", payload.environment),
     ("location", payload.location), ("routeName", payload.routeName),
     ("climbType", payload.climbType), ("gradeSystem", payload.gradeSystem),
     ("grade", payload.grade), ("progress", payload.progress)]
  let requiredErrs :=
    (requiredFields.filter (fun fv => pyStrip fv.2 = "")).map
      (fun fv => (fv.1, fv.1 ++ " is required."))
  let date_str := pyStrip payload.date
  let dateErrs :=
    if date_str ≠ "" then
      match parse_date date_str with
      | some dt =>
        if dateLtB today dt then [("date", "Date cannot be in the future.")] else []
      | none => [("date", "Date must be YYYY-MM-DD.")]
    else []
  let envErrs :=
    if payload.environment ≠ "" ∧ payload.environment ∉ ["gym", "outdoor"] then
      [("environment", "Environment must be gym or outdoor.")]
    else []
  let ctypeErrs :=
    if payload.climbType ≠ "" ∧
        payload.climbType ∉ ["top-rope", "sport", "trad", "boulder"] then
      [("climbType", "Invalid climb type.")]
    else []
  let progErrs :=
    if payload.progress ≠ "" ∧ payload.progress ∉ ["complete", "incomplete"] then
      [("progress", "Progress must be complete or incomplete.")]
    else []
  let gsys := payload.gradeSystem
  let grade := pyStrip payload.grade
  let gradeErrs :=
    if payload.climbType = "boulder" then
      (if gsys ≠ "" ∧ gsys ≠ "V" then
        [("gradeSystem", "Bouldering should use V-Scale.")] else []) ++
      (if gsys = "V" ∧ grade ≠ "" then
        (let k := _v_key grade
         if k < 0 ∨ k > 17 then
           [("grade", "Bouldering grades must be between V0 and V17.")] else [])
       else [])
    else
      (if gsys ≠ "" ∧ gsys ≠ "YDS" then
        [("gradeSystem", "Roped climbs should use YDS.")] else []) ++
      (if gsys = "YDS" ∧ grade ≠ "" then
        (let k := _yds_key grade
         if k < 502 ∨ k > 515 then
           [("grade", "Roped climb grades must be between 5.2 and 5.15.")] else [])
       else [])
  requiredErrs ++ dateErrs ++ envErrs ++ ctypeErrs ++ progErrs ++ gradeErrs

/-- Whether the errors dict has an entry for `field`. -/
def hasError (errs : Errors) (field : String) : Bool :=
  errs.any (fun e => e.1 = field)

/- ### Log store rows (table `climb_logs`, server.py:101-127) -/

/-- One row of `climb_logs`.  The store is a `List Record` in insertion
    order.  `date` is the parsed SQL `DATE` value; image columns are
    nullable (`Option`), with bytes as `List Nat`. -/
structure Record where
  id : String
  date : Date3
  environment : String
  location : String
  route_name : String
  climb_type : String
  grade_system : String
  grade : String
  grade_key : Int
  progress : String
  image_data : Option (List Nat)
  image_mime : Option String
  image_filename : Option String
deriving DecidableEq, Repr

/-- `to_api_row` (server.py:229): projection returned by the API, with
    `has_image = (image_mime IS NOT NULL)` from the SELECT list. -/
structure ApiRow where
  id : String
  date : Date3
  environment : String
  location : String
  routeName : String
  climbType : String
  gradeSystem : String
  grade : String
  progress : String
  hasImage : Bool
deriving DecidableEq, Repr

def to_api_row (r : Record) : ApiRow :=
  ⟨r.id, r.date, r.environment, r.location, r.route_name, r.climb_type,
   r.grade_system, r.grade, r.progress, r.image_mime.isSome⟩

/- ### SQL `LIKE` / `ILIKE` pattern semantics -/

/-- Disjunction of `f` over a list and all of its suffixes (the
    backtracking step of a `%` wildcard). -/

def like_tails (f : List Char → Bool) : List Char → Bool
  | [] => f []
  | d :: t => f (d :: t) || like_tails f t

/-- Postgres `LIKE` matching over character lists: `%` matches any
    sequence, `_` any single character, backslash escapes the next
    pattern character.  (A pattern ending in a bare backslash is a
    Postgres error; it cannot arise from the `%...%` patterns the
    source builds, and is modelled as no match.) -/
def like_match : List Char → List Char → Bool
  | [], s => s.isEmpty
  | c :: p, s =>
    if c = '%' then like_tails (like_match p) s
    else if c = '_' then
      match s with
      | [] => false
      | _ :: t => like_match p t
    else if c = '\\' then
      match p with
      | c2 :: p2 =>
        (match s with
         | [] => false
         | d :: t => c2 = d && like_match p2 t)
      | [] => false
    else
      match s with
      | [] => false
      | d :: t => c = d && like_match p t

/-- `value ILIKE pattern`: case-insensitive `LIKE` (both sides
    case-folded). -/
def ilike (value pattern : String) : Bool :=
  like_match (pattern.data.map lowerChar) (value.data.map lowerChar)

/- ### Query engine (`build_where_clauses` / `resolve_order_by` /
   `should_allow_grade_sort` / `list_logs`, server.py:247-498) -/

/-- `_parse_csv` (server.py:47): split a csv query arg on commas, strip
    entries, drop blanks; absent/empty arg gives `[]`. -/
def _parse_csv (arg : Option String) : List String :=
  match arg with
  | none => []
  | some s =>
    if s = "" then []
    else ((s.split (fun c => c = ',')).map pyStrip).filter (fun x => x ≠ "")

/-- Row predicate of the WHERE clause built by `build_where_clauses`
    (server.py:247-277): free text `q` via `ILIKE '%q%'` on route name
    or location, and `IN`-membership for each provided set criterion. -/
def matches_where (q : String) (envs types progress : List String)
    (r : Record) : Bool :=
  (q = "" || (ilike r.route_name ("%" ++ q ++ "%") ||
              ilike r.location ("%" ++ q ++ "%"))) &&
  (envs = [] || envs.contains r.environment) &&
  (types = [] || types.contains r.climb_type) &&
  (progress = [] || progress.contains r.progress)

/-- Allow-listed ORDER BY targets of `list_logs`. -/
inductive OrderKey where
  | dateDesc | dateAsc | locationAsc | locationDesc
  | routeAsc | routeDesc | gradeAsc | gradeDesc
deriving DecidableEq, Repr

/-- `resolve_order_by` (server.py:280): allow-list mapping with default
    `date DESC`. -/
def resolve_order_by (sort : String) : OrderKey :=
  if sort = "date_desc" then .dateDesc
  else if sort = "date_asc" then .dateAsc
  else if sort = "location_asc" then .locationAsc
  else if sort = "location_desc" then .locationDesc
  else if sort = "route_asc" then .routeAsc
  else if sort = "route_desc" then .routeDesc
  else .dateDesc

/-- Non-strict string order (Postgres text comparison, modelled as the
    character-wise order of `String`). -/
def strLeB (a b : String) : Bool := !(decide (b < a))

/-- The row comparator denoted by each ORDER BY target. -/
def key_leB : OrderKey → Record → Record → Bool
  | .dateDesc, a, b => dateLeB b.date a.date
  | .dateAsc, a, b => dateLeB a.date b.date
  | .locationAsc, a, b => strLeB a.location b.location
  | .locationDesc, a, b => strLeB b.location a.location
  | .routeAsc, a, b => strLeB a.route_name b.route_name
  | .routeDesc, a, b => strLeB b.route_name a.route_name
  | .gradeAsc, a, b => decide (a.grade_key ≤ b.grade_key)
  | .gradeDesc, a, b => decide (b.grade_key ≤ a.grade_key)

def key_le (o : OrderKey) (a b : Record) : Prop := key_leB o a b = true

/-- `should_allow_grade_sort` (server.py:296): distinct `grade_system`
    values of the filtered rows, blanks dropped; `some sys` iff exactly
    one remains.  (`SELECT DISTINCT` row order does not matter: when
    the deduplicated list is a singleton, `systems[0]` is that unique
    value.) -/
def should_allow_grade_sort (filtered : List Record) : Option String :=
  match ((filtered.map (fun r => r.grade_system)).filter (fun s => s ≠ "")).dedup with
  | [x] => some x
  | _ => none

/-- Sort selection of `list_logs` (server.py:471-478): grade sorts are
    rewritten to `grade_key` only when the filtered set has exactly one
    non-blank grade system and it is `"YDS"` or `"V"`; otherwise
    `date DESC`.  Non-grade sorts go through `resolve_order_by`. -/
def effective_order (sort : String) (filtered : List Record) : OrderKey :=
  if sort = "grade_asc" ∨ sort = "grade_desc" then
    match should_allow_grade_sort filtered with
    | some sys =>
      if sys = "YDS" ∨ sys = "V" then
        (if sort = "grade_asc" then .gradeAsc else .gradeDesc)
      else .dateDesc
    | none => .dateDesc
  else resolve_order_by sort

/-- Page clamp (server.py:455-456): `if page < 1: page = 1`. -/
def effective_page (page : Int) : Int := if page < 1 then 1 else page

def PAGE_SIZE_DEFAULT : Int := 10
def PAGE_SIZE_MAX : Int := 50

/-- Page-size clamp (server.py:447,457-460): absent arg defaults to
    `PAGE_SIZE_DEFAULT`; below 1 resets to the default; above
    `PAGE_SIZE_MAX` clamps to the maximum. -/
def effective_page_size (pageSizeArg : Option Int) : Int :=
  let ps := pageSizeArg.getD PAGE_SIZE_DEFAULT
  let ps := if ps < 1 then PAGE_SIZE_DEFAULT else ps
  if ps > PAGE_SIZE_MAX then PAGE_SIZE_MAX else ps

/-- `q = (request.args.get("q") or "").strip()` then `q.lower()` as
    passed to `build_where_clauses` (server.py:448,462). -/
def query_q (qArg : Option String) : String := pyLower (pyStrip (qArg.getD ""))

/-- `sort = (request.args.get("sort") or "date_desc").strip()`
    (server.py:453). -/
def query_sort (sortArg : Option String) : String :=
  pyStrip (match sortArg with
           | none => "date_desc"
           | some s => if s = "" then "date_desc" else s)

/-- The filtered set of a request: rows of the store satisfying the
    WHERE clause, in store order. -/
def filtered_of (store : List Record) (qArg envArg typeArg progArg : Option String) :
    List Record :=
  store.filter (matches_where (query_q qArg) (_parse_csv envArg)
    (_parse_csv typeArg) (_parse_csv progArg))

/-- The JSON envelope of `GET /api/logs`, with `rows` the selected
    records before the `to_api_row` projection (`items = rows.map
    to_api_row`). -/
structure ListOut where
  rows : List Record
  total : Nat
  page : Int
  pageSize : Int
deriving DecidableEq, Repr

/-- Observable behaviour of `list_logs` (server.py:444-498).  SQL
    `ORDER BY` sorts by the key but leaves the relative order of tied
    rows unspecified, so the result is a relation: some reordering
    `sorted` of the filtered rows that is pairwise ordered by the
    comparator, from which `LIMIT %s OFFSET %s` takes the slice.
    `page`/`pageSize` arrive already `int()`-parsed (absent args take
    the source's defaults `"1"` / `str(PAGE_SIZE_DEFAULT)`). -/
def list_logs_rel (store : List Record)
    (pageArg pageSizeArg : Option Int)
    (qArg envArg typeArg progArg sortArg : Option String)
    (out : ListOut) : Prop :=
  let filtered := filtered_of store qArg envArg typeArg progArg
  let ord := effective_order (query_sort sortArg) filtered
  let page := effective_page (pageArg.getD 1)
  let ps := effective_page_size pageSizeArg
  let offset := ((page - 1) * ps).toNat
  ∃ sorted : List Record,
    filtered.Perm sorted ∧
    List.Pairwise (key_le ord) sorted ∧
    out.rows = (sorted.drop offset).take ps.toNat ∧
    out.total = filtered.length ∧
    out.page = page ∧
    out.pageSize = ps

instance (o : OrderKey) : DecidableRel (key_le o) :=
  fun a b => inferInstanceAs (Decidable (key_leB o a b = true))

/- ### Stats Aggregator (`stats`, server.py:685-701) -/

/-- `SELECT COUNT(*) FROM climb_logs`. -/
def stats_total (store : List Record) : Nat := store.length

/-- `SELECT COUNT(*) ... WHERE progress='complete'`. -/
def stats_complete (store : List Record) : Nat :=
  store.countP (fun r => r.progress = "complete")

/-- Rounding of `num / den` to the nearest integer, halves to even:
    the behaviour of Python `round` on the exact quotient.  (The
    source computes `(complete / total) * 100` in binary floating
    point; on the integer and exact-half quotients relevant here the
    float result is exact, so exact rational rounding is faithful.) -/
def round_half_even (num den : Nat) : Nat :=
  let q := num / den
  let r := num % den
  if 2 * r < den then q
  else if den < 2 * r then q + 1
  else if q % 2 = 0 then q else q + 1

/-- `pct = int(round((complete / total) * 100)) if total else 0`
    (server.py:698). -/
def stats_completion_rate (store : List Record) : Nat :=
  if stats_total store = 0 then 0
  else round_half_even (stats_complete store * 100) (stats_total store)

/-- `SELECT climb_type, COUNT(*) ... GROUP BY climb_type ORDER BY
    climb_type` (server.py:695), as the assoc list the JSON object is
    built from: the distinct climb types in ascending order, each with
    its row count. -/
def stats_by_type (store : List Record) : List (String × Nat) :=
  ((store.map (fun r => r.climb_type)).dedup.insertionSort
      (fun a b => strLeB a b = true)).map
    (fun t => (t, store.countP (fun r => r.climb_type = t)))

/- ### Update (`update_log`, server.py:601-672) -/

/-- A successfully read-and-validated upload from
    `_read_and_validate_image_file`: bytes, mime type, filename. -/
def ImgFile := List Nat × String × String
deriving DecidableEq, Repr

/-- Truthiness parse of the `removeImage` form field (server.py:609-613):
    present and, stripped + lowered, one of `1/true/yes/on`. -/
def parse_remove_image (arg : Option String) : Bool :=
  match arg with
  | none => false
  | some v => ["1", "true", "yes", "on"].contains (pyLower (pyStrip v))

/-- The SET clause of the UPDATE applied to one row (server.py:633-650):
    every mutable column is replaced from the payload (`grade_key`
    recomputed by `_grade_key`); the image columns are nulled when
    `remove_image` is set — taking precedence over a simultaneous
    upload — replaced when a file was uploaded, and untouched
    otherwise.  `id` is only used in WHERE and never assigned.  The
    `date` column stores the parsed date; validation guarantees it
    parses on the success path, so the `getD` fallback is unreachable
    there. -/
def apply_update (p : Payload) (remove_image : Bool) (img : Option ImgFile)
    (r : Record) : Record :=
  let base :=
    { r with
      date := (parse_date (pyStrip p.date)).getD (0, 0, 0)
      environment := pyStrip p.environment
      location := pyStrip p.location
      route_name := pyStrip p.routeName
      climb_type := pyStrip p.climbType
      grade_system := pyStrip p.gradeSystem
      grade := pyStrip p.grade
      grade_key := _grade_key (pyStrip p.gradeSystem) (pyStrip p.grade)
      progress := pyStrip p.progress }
  if remove_image then
    { base with image_data := none, image_mime := none, image_filename := none }
  else
    match img with
    | some (bytes, mime, name) =>
      if mime ≠ "" then
        { base with image_data := some bytes, image_mime := some mime,
                    image_filename := some name }
      else base
    | none => base

/-- `PUT /api/logs/<id>` (server.py:601-672) as a store transformation:
    400 when validation (or the image upload, `imgError`) fails — the
    store is untouched; 404 when no row has the id (rowcount 0);
    otherwise every row with the id is updated in place. -/
def update_log (today : Date3) (store : List Record) (log_id : String)
    (p : Payload) (removeImageArg : Option String) (img : Option ImgFile)
    (imgError : Bool) : Except Nat (List Record) :=
  let errors := validate_payload today p
  if errors ≠ [] ∨ imgError then .error 400
  else if ¬ store.any (fun r => r.id = log_id) then .error 404
  else
    .ok (store.map (fun r =>
      if r.id = log_id then
        apply_update p (parse_remove_image removeImageArg) img r
      else r))

/- ### Shared lemmas about the embedded helpers -/

theorem dropWhile_eq_self_of {p : Char → Bool} {l : List Char}
    (h : ∀ c ∈ l, p c = false) : l.dropWhile p = l := by
  cases l with
  | nil => rfl
  | cons c t =>
    rw [List.dropWhile_cons, h c (List.mem_cons_self c t)]
    simp

theorem stripL_eq_self {l : List Char}
    (h : ∀ c ∈ l, pyIsSpace c = false) : stripL l = l := by
  unfold stripL
  rw [dropWhile_eq_self_of h]
  rw [dropWhile_eq_self_of (fun c hc => h c (List.mem_reverse.mp hc))]
  exact List.reverse_reverse l

theorem map_id_of {f : Char → Char} {l : List Char}
    (h : ∀ c ∈ l, f c = c) : l.map f = l := by
  induction l with
  | nil => rfl
  | cons c t ih =>
    rw [List.map_cons, h c (List.mem_cons_self c t),
      ih (fun x hx => h x (List.mem_cons_of_mem c hx))]

/-- The ASCII digit characters. -/
def digitChars : List Char := ['0', '1', '2', '3', '4', '5', '6', '7', '8', '9']

/-- The ASCII letter characters. -/
def letterChars : List Char :=
  ['a', 'b', 'c', 'd', 'e', 'f', 'g', 'h', 'i', 'j', 'k', 'l', 'm',
   'n', 'o', 'p', 'q', 'r', 's', 't', 'u', 'v', 'w', 'x', 'y', 'z',
   'A', 'B', 'C', 'D', 'E', 'F', 'G', 'H', 'I', 'J', 'K', 'L', 'M',
   'N', 'O', 'P', 'Q', 'R', 'S', 'T', 'U', 'V', 'W', 'X', 'Y', 'Z']

theorem digitChars_facts :
    ∀ c ∈ digitChars, c.isDigit = true ∧ pyIsSpace c = false ∧
      lowerChar c = c ∧ upperChar c = c := by decide

theorem letterChars_facts :
    ∀ c ∈ letterChars, pyIsSpace c = false ∧ (lowerChar c).isDigit = false := by
  decide

theorem pyDigitsGo_all_digits (l : List Char) (acc : Nat)
    (h : ∀ c ∈ l, c ∈ digitChars) :
    pyDigitsGo acc l = some (l.foldl (fun a c => a * 10 + (c.toNat - 48)) acc) := by
  induction l generalizing acc with
  | nil => rfl
  | cons c t ih =>
    have hd : c.isDigit = true := (digitChars_facts c (h c (List.mem_cons_self c t))).1
    rw [pyDigitsGo.eq_def]
    simp only [hd, if_true, List.foldl_cons]
    exact ih _ (fun x hx => h x (List.mem_cons_of_mem c hx))

theorem pyDigits_all_digits (l : List Char) (hne : l ≠ [])
    (h : ∀ c ∈ l, c ∈ digitChars) : pyDigits l = some (digitsVal l) := by
  cases l with
  | nil => exact absurd rfl hne
  | cons c t =>
    have hd : c.isDigit = true := (digitChars_facts c (h c (List.mem_cons_self c t))).1
    simp only [pyDigits, hd, if_true,
      pyDigitsGo_all_digits t _ (fun x hx => h x (List.mem_cons_of_mem c hx)),
      digitsVal, List.foldl_cons, Nat.zero_mul, Nat.zero_add]

theorem digit_not_space {c : Char} (h : c ∈ digitChars) : pyIsSpace c = false :=
  (digitChars_facts c h).2.1

theorem pyIntL_all_digits (l : List Char) (hne : l ≠ [])
    (h : ∀ c ∈ l, c ∈ digitChars) : pyIntL l = some (digitsVal l) := by
  have hs : stripL l = l := stripL_eq_self (fun c hc => digit_not_space (h c hc))
  have hsign : ∀ x ∈ digitChars, x ≠ '+' ∧ x ≠ '-' := by decide
  have hp := pyDigits_all_digits l hne h
  unfold pyIntL
  rw [hs]
  cases l with
  | nil => exact absurd rfl hne
  | cons c t =>
    have hcs := hsign c (h c (List.mem_cons_self c t))
    split
    case h_1 rest heq =>
      injection heq with h1 _
      exact absurd h1 hcs.1
    case h_2 rest heq =>
      injection heq with h1 _
      exact absurd h1 hcs.2
    case h_3 =>
      rw [hp]
      rfl

theorem all_eq_dedup {l : List String} {s : String} (hne : l ≠ [])
    (h : ∀ x ∈ l, x = s) : l.dedup = [s] := by
  induction l with
  | nil => exact absurd rfl hne
  | cons a t ih =>
    have ha : a = s := h a (List.mem_cons_self a t)
    cases t with
    | nil => simp [List.dedup, ha]
    | cons b t' =>
      have hb : b = s := h b (List.mem_cons_of_mem a (List.mem_cons_self b t'))
      have hmem : a ∈ b :: t' := by rw [ha, hb]; exact List.mem_cons_self s t'
      rw [List.dedup_cons_of_mem hmem]
      exact ih (List.cons_ne_nil b t') (fun x hx => h x (List.mem_cons_of_mem a hx))

theorem eq_of_dedup_singleton {l : List String} {x y : String}
    (hd : l.dedup = [x]) (hy : y ∈ l) : y = x := by
  have : y ∈ l.dedup := List.mem_dedup.mpr hy
  rw [hd] at this
  exact List.mem_singleton.mp this

/- ### Claim C7: the V-scale encoder -/

/-- C7 counterexample: the claim says any string other than "V followed
    by digits" (after trimming, case-insensitively) yields the sentinel
    -1, but Python `int()` also accepts a sign: `_v_key "V-3"` returns
    `-3`, not `-1`. -/
theorem c7_vkey_counterexample : _v_key "V-3" = -3 ∧ (-3 : Int) ≠ -1 := by
  decide

/-- C7 (amended): when the trimmed, upper-cased input is `V` followed by
    one or more digits, `_v_key` returns the value of the digits; when
    it does not begin with `V`, the result is the sentinel -1 (so for
    `"VX"` and `""` in particular); strings whose remainder after `V`
    still parses as a Python integer (signs, inner whitespace,
    underscores) return that — possibly negative — value instead of -1;
    `_grade_key` on any scale name other than `"YDS"`/`"V"` is -1.  The
    encoder is a total Lean function: exceptions are modelled away
    inside `pyIntL`. -/
theorem c7_vkey_amended :
    (∀ (g : String) (ds : List Char),
        (stripL g.data).map upperChar = 'V' :: ds → ds ≠ [] →
        (∀ c ∈ ds, c ∈ digitChars) → _v_key g = (digitsVal ds : Int))
    ∧ (∀ g : String, ((stripL g.data).map upperChar).take 1 ≠ ['V'] →
        _v_key g = -1)
    ∧ _v_key "VX" = -1 ∧ _v_key "" = -1
    ∧ (∀ sys g : String, sys ≠ "YDS" → sys ≠ "V" → _grade_key sys g = -1) := by
  refine ⟨?_, ?_, by decide, by decide, ?_⟩
  · intro g ds hrep hne hdig
    unfold _v_key
    rw [hrep]
    split
    case h_1 rest heq =>
      injection heq with _ h2
      subst h2
      rw [pyIntL_all_digits ds hne hdig]
      rfl
    case h_2 hne2 =>
      exact absurd rfl (hne2 ds)
  · intro g htake
    unfold _v_key
    split
    case h_1 rest heq =>
      rw [heq] at htake
      exact absurd rfl htake
    case h_2 => rfl
  · intro sys g h1 h2
    unfold _grade_key
    rw [if_neg h1, if_neg h2]

/-- C7 witness: the amended theorem applied at `"v17"` (trim/upper-case
    path), at `"x5"` (non-`V` prefix), and at an unknown scale name. -/
theorem c7_vkey_amended_witness :
    _v_key "v17" = 17 ∧ _v_key "x5" = -1 ∧ _grade_key "font" "7a" = -1 := by
  refine ⟨?_, ?_, ?_⟩
  · rw [c7_vkey_amended.1 "v17" ['1', '7'] (by decide) (by decide) (by decide)]
    decide
  · exact c7_vkey_amended.2.1 "x5" (by decide)
  · exact c7_vkey_amended.2.2.2.2 "font" "7a" (by decide) (by decide)

/- ### Claim C8: the YDS encoder -/

/-- The YDS display list `"5.2"` through `"5.15"` (spec glossary). -/
def ydsDisplay : List String :=
  ["5.2", "5.3", "5.4", "5.5", "5.6", "5.7", "5.8", "5.9",
   "5.10", "5.11", "5.12", "5.13", "5.14", "5.15"]

/-- C8 counterexample: the claim says any string not starting with
    `"5."` yields -1, but the encoder strips whitespace first:
    `" 5.3"` does not start with `"5."` yet encodes to 503. -/
theorem c8_ydskey_counterexample :
    (" 5.3" : String).data.take 2 ≠ ['5', '.'] ∧
    _yds_key " 5.3" = 503 ∧ (503 : Int) ≠ -1 := by
  decide

/-- C8 (amended): every display grade `"5.2"`..`"5.15"` encodes to
    `500 + digits`, inside `[502, 515]`, strictly monotonically with
    display order (in particular `"5.9" < "5.10" < "5.11"`); letter
    suffixes are discarded; and any string whose *trimmed* form does
    not start with `"5."` yields -1. -/
theorem c8_ydskey_amended :
    ydsDisplay.map _yds_key =
      [502, 503, 504, 505, 506, 507, 508, 509, 510, 511, 512, 513, 514, 515]
    ∧ List.Pairwise (fun a b : Int => a < b) (ydsDisplay.map _yds_key)
    ∧ (∀ k ∈ ydsDisplay.map _yds_key, 502 ≤ k ∧ k ≤ 515)
    ∧ (_yds_key "5.9" < _yds_key "5.10" ∧ _yds_key "5.10" < _yds_key "5.11")
    ∧ (∀ ds suf : List Char, ds ≠ [] →
        (∀ c ∈ ds, c ∈ digitChars) → (∀ c ∈ suf, c ∈ letterChars) →
        _yds_key (String.mk ('5' :: '.' :: (ds ++ suf))) = 500 + (digitsVal ds : Int))
    ∧ (∀ g : String, ((stripL g.data).map lowerChar).take 2 ≠ ['5', '.'] →
        _yds_key g = -1) := by
  refine ⟨by decide, by decide, by decide, by decide, ?_, ?_⟩
  · intro ds suf hne hdig hsuf
    have hspace : ∀ c ∈ ('5' :: '.' :: (ds ++ suf)), pyIsSpace c = false := by
      intro c hc
      rcases hc with _ | ⟨_, hc⟩
      · decide
      rcases hc with _ | ⟨_, hc⟩
      · decide
      rcases List.mem_append.mp hc with h | h
      · exact digit_not_space (hdig c h)
      · exact (letterChars_facts c (hsuf c h)).1
    have hmapds : ds.map lowerChar = ds :=
      map_id_of (fun c hc => (digitChars_facts c (hdig c hc)).2.2.1)
    have hfds : ds.filter Char.isDigit = ds :=
      List.filter_eq_self.mpr (fun c hc => (digitChars_facts c (hdig c hc)).1)
    have hfsuf : (suf.map lowerChar).filter Char.isDigit = [] := by
      rw [List.filter_eq_nil_iff]
      intro a ha
      rcases List.mem_map.mp ha with ⟨c, hc, rfl⟩
      rw [(letterChars_facts c (hsuf c hc)).2]
      exact Bool.false_ne_true
    unfold _yds_key
    rw [show (String.mk ('5' :: '.' :: (ds ++ suf))).data
          = '5' :: '.' :: (ds ++ suf) from rfl,
      stripL_eq_self hspace]
    rw [List.map_cons, List.map_cons, List.map_append, hmapds,
      show lowerChar '5' = '5' from rfl, show lowerChar '.' = '.' from rfl]
    split
    case h_1 rest heq =>
      injection heq with _ h2
      injection h2 with _ h3
      rw [← h3, List.filter_append, hfds, hfsuf, List.append_nil,
        pyDigits_all_digits ds hne hdig]
    case h_2 hne2 =>
      exact absurd rfl (hne2 (ds ++ suf.map lowerChar))
  · intro g htake
    unfold _yds_key
    split
    case h_1 rest heq =>
      rw [heq] at htake
      exact absurd rfl htake
    case h_2 => rfl

/-- C8 witness: the amended theorem applied at digits `['1','0']` with
    letter suffix `['a']` (so `"5.10a"` encodes to 510) and at `"6a"`
    (no `"5."` prefix). -/
theorem c8_ydskey_amended_witness :
    _yds_key "5.10a" = 510 ∧ _yds_key "6a" = -1 := by
  constructor
  · have h := c8_ydskey_amended.2.2.2.2.1 ['1', '0'] ['a']
      (by decide) (by decide) (by decide)
    exact (show _yds_key "5.10a" = 500 + (digitsVal ['1', '0'] : Int) from h).trans
      (by decide)
  · exact c8_ydskey_amended.2.2.2.2.2 "6a" (by decide)

/- ### Claim C2: the grade range checks of the Validator -/

theorem hasError_append_right {a b : List (String × String)} {f : String}
    (h : hasError b f = true) : hasError (a ++ b) f = true := by
  unfold hasError at *
  rw [List.any_append, h, Bool.or_true]

/-- C2 counterexample: `gradeSystem = "V"`, `grade = "V99"` (codec key
    99, outside `[0, 17]`), but `climbType = "sport"`: the claim
    demands an error on `grade`; the code only runs the V-range check
    inside the `climbType == "boulder"` branch, so no `grade` error is
    produced. -/
theorem c2_range_counterexample :
    _v_key "V99" = 99 ∧ ¬(0 ≤ (99 : Int) ∧ (99 : Int) ≤ 17) ∧
    hasError
      (validate_payload (2026, 10, 12)
        ⟨"2020-01-01", "gym", "x", "y", "sport", "V", "V99", "complete"⟩)
      "grade" = false := by
  decide

/-- C2 (amended): the V range check `[0, 17]` fires only when
    `climbType = "boulder"` (with `gradeSystem = "V"` and a non-blank
    grade), and the YDS range check `[502, 515]` fires only when
    `climbType ≠ "boulder"` (with `gradeSystem = "YDS"` and a
    non-blank grade); in those cases an out-of-range codec key always
    attaches an error to `grade`. -/
theorem c2_range_amended :
    ∀ (today : Date3) (p : Payload),
      (p.climbType = "boulder" → p.gradeSystem = "V" → pyStrip p.grade ≠ "" →
        (_v_key (pyStrip p.grade) < 0 ∨ 17 < _v_key (pyStrip p.grade)) →
        hasError (validate_payload today p) "grade" = true)
      ∧ (p.climbType ≠ "boulder" → p.gradeSystem = "YDS" → pyStrip p.grade ≠ "" →
        (_yds_key (pyStrip p.grade) < 502 ∨ 515 < _yds_key (pyStrip p.grade)) →
        hasError (validate_payload today p) "grade" = true) := by
  intro today p
  constructor
  · intro h1 h2 hg hk
    unfold validate_payload
    apply hasError_append_right
    rw [if_pos h1]
    apply hasError_append_right
    rw [if_pos ⟨h2, hg⟩, if_pos hk]
    decide
  · intro h1 h2 hg hk
    unfold validate_payload
    apply hasError_append_right
    rw [if_neg h1]
    apply hasError_append_right
    rw [if_pos ⟨h2, hg⟩, if_pos hk]
    decide

/-- C2 witness: the amended theorem applied at a boulder/V payload with
    `"V99"` and a sport/YDS payload with `"5.16"` (key 516). -/
theorem c2_range_amended_witness :
    hasError
      (validate_payload (2026, 10, 12)
        ⟨"2020-01-01", "gym", "x", "y", "boulder", "V", "V99", "complete"⟩)
      "grade" = true ∧
    hasError
      (validate_payload (2026, 10, 12)
        ⟨"2020-01-01", "gym", "x", "y", "sport", "YDS", "5.16", "complete"⟩)
      "grade" = true :=
  ⟨(c2_range_amended (2026, 10, 12)
      ⟨"2020-01-01", "gym", "x", "y", "boulder", "V", "V99", "complete"⟩).1
      (by decide) (by decide) (by decide) (by decide),
   (c2_range_amended (2026, 10, 12)
      ⟨"2020-01-01", "gym", "x", "y", "sport", "YDS", "5.16", "complete"⟩).2
      (by decide) (by decide) (by decide) (by decide)⟩

/- ### Claim C6: page/pageSize clamping and the sort fallback -/

/-- C6 counterexample: the claim says a requested `pageSize` of 0 or
    below is clamped to 1; the code resets it to the default 10
    (`if page_size < 1: page_size = PAGE_SIZE_DEFAULT`,
    server.py:457-458). -/
theorem c6_clamp_counterexample :
    effective_page_size (some 0) = 10 ∧ (10 : Int) ≠ 1 := by
  decide

/-- C6 (amended): the effective pageSize is the default 10 when the
    parameter is absent *or* below 1, is clamped to 50 above 50, and is
    the requested value inside `[1, 50]` (hence always in `[1, 50]`);
    the effective page is the requested page clamped to at least 1; and
    unknown or omitted sort values order by `date DESC`. -/
theorem c6_clamp_amended :
    effective_page_size none = 10
    ∧ (∀ ps : Int, ps < 1 → effective_page_size (some ps) = 10)
    ∧ (∀ ps : Int, 50 < ps → effective_page_size (some ps) = 50)
    ∧ (∀ ps : Int, 1 ≤ ps → ps ≤ 50 → effective_page_size (some ps) = ps)
    ∧ (∀ psArg : Option Int,
        1 ≤ effective_page_size psArg ∧ effective_page_size psArg ≤ 50)
    ∧ (∀ pg : Int, pg < 1 → effective_page pg = 1)
    ∧ (∀ pg : Int, 1 ≤ pg → effective_page pg = pg)
    ∧ (∀ s : String,
        s ∉ ["date_desc", "date_asc", "location_asc", "location_desc",
             "route_asc", "route_desc", "grade_asc", "grade_desc"] →
        ∀ filtered : List Record, effective_order s filtered = .dateDesc)
    ∧ (∀ filtered : List Record,
        effective_order (query_sort none) filtered = .dateDesc) := by
  refine ⟨rfl, ?_, ?_, ?_, ?_, ?_, ?_, ?_, ?_⟩
  · intro ps h
    simp only [effective_page_size, Option.getD, PAGE_SIZE_DEFAULT, PAGE_SIZE_MAX]
    rw [if_pos h]
    rfl
  · intro ps h
    simp only [effective_page_size, Option.getD, PAGE_SIZE_DEFAULT, PAGE_SIZE_MAX]
    rw [if_neg (show ¬ ps < 1 from by omega)]
    split <;> omega
  · intro ps h1 h2
    simp only [effective_page_size, Option.getD, PAGE_SIZE_DEFAULT, PAGE_SIZE_MAX]
    rw [if_neg (show ¬ ps < 1 from by omega)]
    split <;> omega
  · intro psArg
    simp only [effective_page_size, PAGE_SIZE_DEFAULT, PAGE_SIZE_MAX]
    split <;> split <;> omega
  · intro pg h
    simp only [effective_page]
    rw [if_pos h]
  · intro pg h
    simp only [effective_page]
    rw [if_neg (by omega)]
  · intro s hs filtered
    simp only [List.mem_cons, List.mem_singleton, not_or] at hs
    obtain ⟨h1, h2, h3, h4, h5, h6, h7, h8, -⟩ := hs
    simp only [effective_order, resolve_order_by]
    rw [if_neg (by tauto)]
    rw [if_neg h1, if_neg h2, if_neg h3, if_neg h4, if_neg h5, if_neg h6]
  · intro filtered
    show effective_order (query_sort none) filtered = .dateDesc
    have hq : query_sort none = "date_desc" := by decide
    rw [hq]
    rfl

/-- C6 witness: the amended theorem applied at pageSize 0 / 99 / 25,
    page -3 / 7, and the unknown sort string `"name_asc"`. -/
theorem c6_clamp_amended_witness :
    effective_page_size (some 0) = 10 ∧ effective_page_size (some 99) = 50 ∧
    effective_page_size (some 25) = 25 ∧ effective_page (-3) = 1 ∧
    effective_page 7 = 7 ∧ effective_order "name_asc" [] = .dateDesc :=
  ⟨c6_clamp_amended.2.1 0 (by decide),
   c6_clamp_amended.2.2.1 99 (by decide),
   c6_clamp_amended.2.2.2.1 25 (by decide) (by decide),
   c6_clamp_amended.2.2.2.2.2.1 (-3) (by decide),
   c6_clamp_amended.2.2.2.2.2.2.1 7 (by decide),
   c6_clamp_amended.2.2.2.2.2.2.2.1 "name_asc" (by decide) []⟩

/- ### Claim C9: the stats aggregator -/

/-- C9: `total` is the row count; the completion rate is 0 on an empty
    collection (the guard avoids the division); three complete records
    out of four give a rate of 75; and the byType assoc list contains
    exactly the climb types present in the store, each with its row
    count. -/
theorem c9_stats :
    (∀ store : List Record, stats_total store = store.length)
    ∧ stats_completion_rate ([] : List Record) = 0
    ∧ (∀ r1 r2 r3 r4 : Record,
        r1.progress = "complete" → r2.progress = "complete" →
        r3.progress = "complete" → r4.progress ≠ "complete" →
        stats_completion_rate [r1, r2, r3, r4] = 75)
    ∧ (∀ (store : List Record) (t : String) (n : Nat),
        (t, n) ∈ stats_by_type store ↔
          ((∃ r ∈ store, r.climb_type = t) ∧
           n = store.countP (fun r => r.climb_type = t))) := by
  refine ⟨fun _ => rfl, rfl, ?_, ?_⟩
  · intro r1 r2 r3 r4 h1 h2 h3 h4
    simp [stats_completion_rate, stats_total, stats_complete, h1, h2, h3, h4]
    decide
  · intro store t n
    unfold stats_by_type
    rw [List.mem_map]
    constructor
    · rintro ⟨x, hx, hxe⟩
      injection hxe with he1 he2
      subst he1
      refine ⟨?_, he2.symm⟩
      have hx' : x ∈ (store.map (fun r => r.climb_type)).dedup :=
        ((List.perm_insertionSort _ _).mem_iff).mp hx
      rcases List.mem_map.mp (List.mem_dedup.mp hx') with ⟨r, hr, hre⟩
      exact ⟨r, hr, hre⟩
    · rintro ⟨⟨r, hr, hre⟩, hn⟩
      refine ⟨t, ?_, ?_⟩
      · exact ((List.perm_insertionSort _ _).mem_iff).mpr
          (List.mem_dedup.mpr (List.mem_map.mpr ⟨r, hr, hre⟩))
      · rw [hn]

/-- A concrete record used by witnesses (progress passed in). -/
def witRec (i : String) (prog : String) : Record :=
  ⟨i, (2024, 1, 1), "gym", "loc", "route", "sport", "YDS", "5.9", 509, prog,
   none, none, none⟩

/-- C9 witness: three of four complete gives a rate of 75. -/
theorem c9_stats_witness :
    stats_completion_rate
      [witRec "a" "complete", witRec "b" "complete",
       witRec "c" "complete", witRec "d" "incomplete"] = 75 :=
  c9_stats.2.2.1 _ _ _ _ (by decide) (by decide) (by decide) (by decide)

/- ### Claim C4: determinism / stable tie order of the list query -/

/-- Two rows tied on the default sort key (same date). -/
def tieA : Record :=
  ⟨"a", (2024, 1, 1), "gym", "locA", "routeA", "sport", "YDS", "5.9", 509,
   "complete", none, none, none⟩

def tieB : Record :=
  ⟨"b", (2024, 1, 1), "gym", "locB", "routeB", "sport", "YDS", "5.10", 510,
   "complete", none, none, none⟩

/-- C4: the code orders with a bare single-key `ORDER BY` (here the
    default `date DESC`) and no tie-breaker, so on a store with two
    rows of equal date *both* orders of the pair are admissible
    outputs of `list_logs` for identical store contents and criteria,
    and they differ as API responses; the second one also reverses the
    insertion order of the tied rows.  This exhibits the failure of
    the claimed determinism/stability. -/
theorem c4_unstable_tie_exhibit :
    list_logs_rel [tieA, tieB] none none none none none none none
      ⟨[tieA, tieB], 2, 1, 10⟩
    ∧ list_logs_rel [tieA, tieB] none none none none none none none
      ⟨[tieB, tieA], 2, 1, 10⟩
    ∧ [tieA, tieB].map to_api_row ≠ [tieB, tieA].map to_api_row :=
  ⟨⟨[tieA, tieB], by decide, by decide, by decide, by decide, by decide,
     by decide⟩,
   ⟨[tieB, tieA], by decide, by decide, by decide, by decide, by decide,
     by decide⟩,
   by decide⟩

/- ### Claim C5: pagination -/

theorem matches_where_trivial (r : Record) : matches_where "" [] [] [] r = true := by
  simp [matches_where]

theorem filtered_of_none (store : List Record) :
    filtered_of store none none none none = store := by
  unfold filtered_of
  rw [List.filter_eq_self]
  intro r _
  have hq : query_q none = "" := by decide
  rw [hq]
  exact matches_where_trivial r

/-- A store of 25 records whose insertion order is already descending
    by date (Jan 25 down to Jan 1), so it is itself a valid
    `date DESC` output. -/
def mkRec25 (i : Nat) : Record :=
  ⟨toString i, (2024, 1, 25 - i), "gym", "loc", "route", "sport", "YDS",
   "5.9", 509, "complete", none, none, none⟩

def store25 : List Record := (List.range 25).map mkRec25

/-- C5: for every admissible output of `list_logs`, `total` is the
    filtered-but-unpaginated match count, and the returned page is a
    slice of length `min pageSize (total - offset)` (hence at most
    `pageSize`) taken at offset `(page-1)*pageSize` of the sorted
    filtered sequence; concretely, on 25 matching records with the
    default pageSize 10, page 1 has 10 rows, page 3 has 5 rows, and
    `total` is 25 on both. -/
theorem c5_pagination :
    (∀ (store : List Record) (pageArg pageSizeArg : Option Int)
       (qArg envArg typeArg progArg sortArg : Option String) (out : ListOut),
       list_logs_rel store pageArg pageSizeArg qArg envArg typeArg progArg
         sortArg out →
       out.total = (filtered_of store qArg envArg typeArg progArg).length
       ∧ out.rows.length =
           min (effective_page_size pageSizeArg).toNat
             (out.total -
               ((effective_page (pageArg.getD 1) - 1) *
                 effective_page_size pageSizeArg).toNat)
       ∧ out.rows.length ≤ (effective_page_size pageSizeArg).toNat)
    ∧ (∀ out : ListOut,
        list_logs_rel store25 (some 1) none none none none none none out →
        out.rows.length = 10 ∧ out.total = 25)
    ∧ (∀ out : ListOut,
        list_logs_rel store25 (some 3) none none none none none none out →
        out.rows.length = 5 ∧ out.total = 25) := by
  have hgen : ∀ (store : List Record) (pageArg pageSizeArg : Option Int)
      (qArg envArg typeArg progArg sortArg : Option String) (out : ListOut),
      list_logs_rel store pageArg pageSizeArg qArg envArg typeArg progArg
        sortArg out →
      out.total = (filtered_of store qArg envArg typeArg progArg).length
      ∧ out.rows.length =
          min (effective_page_size pageSizeArg).toNat
            (out.total -
              ((effective_page (pageArg.getD 1) - 1) *
                effective_page_size pageSizeArg).toNat)
      ∧ out.rows.length ≤ (effective_page_size pageSizeArg).toNat := by
    intro store pageArg pageSizeArg qArg envArg typeArg progArg sortArg out hrel
    obtain ⟨sorted, hperm, _, hrows, htotal, _, _⟩ := hrel
    have hlen : out.rows.length =
        min (effective_page_size pageSizeArg).toNat
          (out.total -
            ((effective_page (pageArg.getD 1) - 1) *
              effective_page_size pageSizeArg).toNat) := by
      rw [hrows, List.length_take, List.length_drop, ← hperm.length_eq, htotal]
    refine ⟨htotal, hlen, ?_⟩
    rw [hlen]
    exact Nat.min_le_left _ _
  have h25 : (filtered_of store25 none none none none).length = 25 := by
    rw [filtered_of_none]
    simp [store25]
  refine ⟨hgen, ?_, ?_⟩
  · intro out hrel
    obtain ⟨ht, hl, _⟩ := hgen store25 (some 1) none none none none none none out hrel
    rw [ht, h25] at hl ⊢
    exact ⟨by rw [hl]; decide, rfl⟩
  · intro out hrel
    obtain ⟨ht, hl, _⟩ := hgen store25 (some 3) none none none none none none out hrel
    rw [ht, h25] at hl ⊢
    exact ⟨by rw [hl]; decide, rfl⟩

/-- C5 witness: concrete page-1 and page-3 outputs for the 25-record
    store, built from the insertion order itself (already `date DESC`
    sorted), with lengths 10 and 5 and total 25. -/
theorem c5_pagination_witness :
    ((⟨store25.take 10, 25, 1, 10⟩ : ListOut).rows.length = 10 ∧
     (⟨store25.take 10, 25, 1, 10⟩ : ListOut).total = 25) ∧
    ((⟨store25.drop 20, 25, 3, 10⟩ : ListOut).rows.length = 5 ∧
     (⟨store25.drop 20, 25, 3, 10⟩ : ListOut).total = 25) :=
  ⟨c5_pagination.2.1 ⟨store25.take 10, 25, 1, 10⟩
      ⟨store25, by decide, by decide, by decide, by decide, by decide, by decide⟩,
   c5_pagination.2.2 ⟨store25.drop 20, 25, 3, 10⟩
      ⟨store25, by decide, by decide, by decide, by decide, by decide, by decide⟩⟩

/- ### Claim C1: the grade-sort policy -/

theorem should_allow_of_uniform (filtered : List Record) (s : String)
    (hne : filtered ≠ []) (hs : s ≠ "")
    (hall : ∀ r ∈ filtered, r.grade_system = s) :
    should_allow_grade_sort filtered = some s := by
  unfold should_allow_grade_sort
  have hmap : ∀ x ∈ filtered.map (fun r => r.grade_system), x = s := by
    intro x hx
    rcases List.mem_map.mp hx with ⟨r, hr, rfl⟩
    exact hall r hr
  have hfil : (filtered.map (fun r => r.grade_system)).filter
      (fun x => x ≠ "") = filtered.map (fun r => r.grade_system) := by
    rw [List.filter_eq_self]
    intro x hx
    rw [hmap x hx]
    exact decide_eq_true hs
  rw [hfil, all_eq_dedup (by simpa using hne) hmap]

theorem should_allow_none_of_mixed (filtered : List Record)
    (r1 r2 : Record) (h1 : r1 ∈ filtered) (h2 : r2 ∈ filtered)
    (hn1 : r1.grade_system ≠ "") (hn2 : r2.grade_system ≠ "")
    (hmix : r1.grade_system ≠ r2.grade_system) :
    should_allow_grade_sort filtered = none := by
  unfold should_allow_grade_sort
  have hm1 : r1.grade_system ∈ (filtered.map (fun r => r.grade_system)).filter
      (fun x => x ≠ "") :=
    List.mem_filter.mpr ⟨List.mem_map.mpr ⟨r1, h1, rfl⟩, decide_eq_true hn1⟩
  have hm2 : r2.grade_system ∈ (filtered.map (fun r => r.grade_system)).filter
      (fun x => x ≠ "") :=
    List.mem_filter.mpr ⟨List.mem_map.mpr ⟨r2, h2, rfl⟩, decide_eq_true hn2⟩
  cases hd : ((filtered.map (fun r => r.grade_system)).filter
      (fun x => x ≠ "")).dedup with
  | nil => rfl
  | cons a t =>
    cases t with
    | nil =>
      exact absurd ((eq_of_dedup_singleton hd hm1).trans
        (eq_of_dedup_singleton hd hm2).symm) hmix
    | cons b t' => rfl

theorem should_allow_none_of_blank (filtered : List Record)
    (hall : ∀ r ∈ filtered, r.grade_system = "") :
    should_allow_grade_sort filtered = none := by
  unfold should_allow_grade_sort
  have hfil : (filtered.map (fun r => r.grade_system)).filter
      (fun x => x ≠ "") = [] := by
    rw [List.filter_eq_nil_iff]
    intro x hx
    rcases List.mem_map.mp hx with ⟨r, hr, rfl⟩
    rw [hall r hr]
    simp
  rw [hfil]
  rfl

/-- C1: for a `grade_asc`/`grade_desc` request over a store whose
    scales lie in the spec's data domain {blank, YDS, V}, if the
    filtered set is non-empty and every filtered record has the same
    non-blank scale, the returned page is ordered by the records'
    stored grade keys (ascending resp. descending); if the filtered
    set is empty, mixes two non-blank scales, or has blank scales
    exclusively, the page is ordered as for `date_desc`; and the
    eligibility decision is a function of the filtered set alone. -/
theorem c1_grade_sort_policy :
    (∀ (store : List Record) (pageArg pageSizeArg : Option Int)
       (qArg envArg typeArg progArg : Option String) (sortKey : String)
       (out : ListOut),
       (sortKey = "grade_asc" ∨ sortKey = "grade_desc") →
       (∀ r ∈ store, r.grade_system = "" ∨ r.grade_system = "YDS" ∨
         r.grade_system = "V") →
       list_logs_rel store pageArg pageSizeArg qArg envArg typeArg progArg
         (some sortKey) out →
       ((filtered_of store qArg envArg typeArg progArg ≠ [] ∧
         (∃ s, s ≠ "" ∧
           ∀ r ∈ filtered_of store qArg envArg typeArg progArg,
             r.grade_system = s)) →
         ((sortKey = "grade_asc" →
            out.rows.Pairwise (fun a b => a.grade_key ≤ b.grade_key)) ∧
          (sortKey = "grade_desc" →
            out.rows.Pairwise (fun a b => b.grade_key ≤ a.grade_key))))
       ∧ ((filtered_of store qArg envArg typeArg progArg = [] ∨
           (∃ r1 ∈ filtered_of store qArg envArg typeArg progArg,
            ∃ r2 ∈ filtered_of store qArg envArg typeArg progArg,
              r1.grade_system ≠ "" ∧ r2.grade_system ≠ "" ∧
              r1.grade_system ≠ r2.grade_system) ∨
           (∀ r ∈ filtered_of store qArg envArg typeArg progArg,
             r.grade_system = "")) →
          out.rows.Pairwise (fun a b => dateLeB b.date a.date = true)))
    ∧ (∀ lA lB : List Record, lA = lB →
        should_allow_grade_sort lA = should_allow_grade_sort lB) := by
  constructor
  · intro store pageArg pageSizeArg qArg envArg typeArg progArg sortKey out
      hsort hdom hrel
    obtain ⟨sorted, hperm, hpair, hrows, -, -, -⟩ := hrel
    have hsub : out.rows.Sublist sorted := by
      rw [hrows]
      exact (List.take_sublist _ _).trans (List.drop_sublist _ _)
    constructor
    · rintro ⟨hne, s, hs, hall⟩
      have hfsub : ∀ r ∈ filtered_of store qArg envArg typeArg progArg,
          r ∈ store := fun r hr => List.mem_of_mem_filter hr
      have hsome : should_allow_grade_sort
          (filtered_of store qArg envArg typeArg progArg) = some s :=
        should_allow_of_uniform _ s hne hs hall
      have hsv : s = "YDS" ∨ s = "V" := by
        rcases List.exists_mem_of_ne_nil _ hne with ⟨r0, hr0⟩
        rcases hdom r0 (hfsub r0 hr0) with h | h | h
        · exact absurd ((hall r0 hr0).symm.trans h) hs
        · exact Or.inl ((hall r0 hr0).symm.trans h)
        · exact Or.inr ((hall r0 hr0).symm.trans h)
      rcases hsort with rfl | rfl
      · have hq : query_sort (some "grade_asc") = "grade_asc" := by decide
        rw [hq] at hpair
        have horder : effective_order "grade_asc"
            (filtered_of store qArg envArg typeArg progArg) = .gradeAsc := by
          unfold effective_order
          rw [if_pos (Or.inl rfl), hsome]
          dsimp only
          rw [if_pos hsv, if_pos rfl]
        rw [horder] at hpair
        refine ⟨fun _ => ?_, fun h => absurd h (by decide)⟩
        exact (List.Pairwise.sublist hsub hpair).imp (fun h => of_decide_eq_true h)
      · have hq : query_sort (some "grade_desc") = "grade_desc" := by decide
        rw [hq] at hpair
        have horder : effective_order "grade_desc"
            (filtered_of store qArg envArg typeArg progArg) = .gradeDesc := by
          unfold effective_order
          rw [if_pos (Or.inr rfl), hsome]
          dsimp only
          rw [if_pos hsv, if_neg (by decide : ¬("grade_desc" = "grade_asc"))]
        rw [horder] at hpair
        refine ⟨fun h => absurd h (by decide), fun _ => ?_⟩
        exact (List.Pairwise.sublist hsub hpair).imp (fun h => of_decide_eq_true h)
    · intro hcase
      have hnone : should_allow_grade_sort
          (filtered_of store qArg envArg typeArg progArg) = none := by
        rcases hcase with h | ⟨r1, h1, r2, h2, hn1, hn2, hmix⟩ | h
        · exact should_allow_none_of_blank _ (by rw [h]; intro r hr; cases hr)
        · exact should_allow_none_of_mixed _ r1 r2 h1 h2 hn1 hn2 hmix
        · exact should_allow_none_of_blank _ h
      rcases hsort with rfl | rfl
      · have hq : query_sort (some "grade_asc") = "grade_asc" := by decide
        rw [hq] at hpair
        have horder : effective_order "grade_asc"
            (filtered_of store qArg envArg typeArg progArg) = .dateDesc := by
          unfold effective_order
          rw [if_pos (Or.inl rfl), hnone]
        rw [horder] at hpair
        exact List.Pairwise.sublist hsub hpair
      · have hq : query_sort (some "grade_desc") = "grade_desc" := by decide
        rw [hq] at hpair
        have horder : effective_order "grade_desc"
            (filtered_of store qArg envArg typeArg progArg) = .dateDesc := by
          unfold effective_order
          rw [if_pos (Or.inr rfl), hnone]
        rw [horder] at hpair
        exact List.Pairwise.sublist hsub hpair
  · intro lA lB h
    rw [h]

/-- C1 witness: a one-record YDS store under `sort=grade_asc`; the
    single admissible page is ordered by grade key. -/
theorem c1_grade_sort_policy_witness :
    (⟨[tieA], 1, 1, 10⟩ : ListOut).rows.Pairwise
      (fun a b => a.grade_key ≤ b.grade_key) :=
  ((c1_grade_sort_policy.1 [tieA] none none none none none none "grade_asc"
      ⟨[tieA], 1, 1, 10⟩ (Or.inl rfl) (by decide)
      ⟨[tieA], by decide, by decide, by decide, by decide, by decide,
       by decide⟩).1
    ⟨by decide, "YDS", by decide, by decide⟩).1 rfl

/- ### Claim C3: filtering semantics -/

theorem like_tails_eq_true (f : List Char → Bool) :
    ∀ s : List Char, (like_tails f s = true ↔ ∃ n, f (s.drop n) = true) := by
  intro s
  induction s with
  | nil =>
    show f [] = true ↔ ∃ n, f (List.drop n []) = true
    constructor
    · intro h
      exact ⟨0, h⟩
    · rintro ⟨n, hn⟩
      rw [List.drop_nil] at hn
      exact hn
  | cons d t ih =>
    show (f (d :: t) || like_tails f t) = true ↔
      ∃ n, f (List.drop n (d :: t)) = true
    rw [Bool.or_eq_true_iff, ih]
    constructor
    · rintro (h | ⟨n, hn⟩)
      · exact ⟨0, h⟩
      · exact ⟨n + 1, hn⟩
    · rintro ⟨n, hn⟩
      cases n with
      | zero => exact Or.inl hn
      | succ m => exact Or.inr ⟨m, hn⟩

theorem like_match_percent_cons (p : List Char) (s : List Char) :
    like_match ('%' :: p) s = like_tails (like_match p) s := by
  rw [like_match.eq_def]
  simp

theorem like_match_percent_any (s : List Char) : like_match ['%'] s = true := by
  rw [like_match_percent_cons]
  exact (like_tails_eq_true (like_match []) s).mpr
    ⟨s.length, by rw [List.drop_length]; rfl⟩

theorem like_match_lit_percent (q : List Char)
    (h : ∀ c ∈ q, c ≠ '%' ∧ c ≠ '_' ∧ c ≠ '\\') :
    ∀ s : List Char, (like_match (q ++ ['%']) s = true ↔ ∃ t, s = q ++ t) := by
  induction q with
  | nil =>
    intro s
    simp only [List.nil_append]
    rw [like_match_percent_any s]
    exact ⟨fun _ => ⟨s, rfl⟩, fun _ => rfl⟩
  | cons c q' ih =>
    intro s
    have hc := h c (List.mem_cons_self c q')
    have ih' := ih (fun x hx => h x (List.mem_cons_of_mem c hx))
    cases s with
    | nil =>
      rw [List.cons_append, like_match.eq_def]
      simp only [if_neg hc.1, if_neg hc.2.1, if_neg hc.2.2]
      constructor
      · intro hfalse
        exact absurd hfalse (by simp)
      · rintro ⟨t, ht⟩
        exact absurd ht (by simp)
    | cons d t =>
      rw [List.cons_append, like_match.eq_def]
      simp only [if_neg hc.1, if_neg hc.2.1, if_neg hc.2.2]
      rw [Bool.and_eq_true, ih' t]
      constructor
      · rintro ⟨hcd, u, rfl⟩
        exact ⟨u, by rw [of_decide_eq_true hcd, List.cons_append]⟩
      · rintro ⟨u, hu⟩
        rw [List.cons_append] at hu
        injection hu with h1 h2
        exact ⟨by rw [h1]; exact decide_eq_true rfl, u, h2⟩

theorem like_match_percent_shift (p : List Char) (s : List Char) :
    like_match ('%' :: p) s = true ↔ ∃ n, like_match p (s.drop n) = true := by
  rw [like_match_percent_cons]
  exact like_tails_eq_true (like_match p) s

theorem like_match_substr (q : List Char)
    (h : ∀ c ∈ q, c ≠ '%' ∧ c ≠ '_' ∧ c ≠ '\\') (s : List Char) :
    like_match ('%' :: (q ++ ['%'])) s = true ↔
      ∃ pre post, s = pre ++ q ++ post := by
  rw [like_match_percent_shift]
  constructor
  · rintro ⟨n, hn⟩
    rcases (like_match_lit_percent q h _).mp hn with ⟨t, ht⟩
    refine ⟨s.take n, t, ?_⟩
    rw [List.append_assoc, ← ht, List.take_append_drop]
  · rintro ⟨pre, post, rfl⟩
    refine ⟨pre.length, (like_match_lit_percent q h _).mpr ⟨post, ?_⟩⟩
    rw [List.append_assoc, List.drop_left]

theorem toNat_ofNat_char (n : Nat) (h : n < 55296) :
    (Char.ofNat n).toNat = n := by
  simp only [Char.ofNat, Nat.isValidChar]
  rw [dif_pos (Or.inl h)]
  rfl

/-- Lower-casing never produces a `LIKE` metacharacter from a
    non-metacharacter. -/
theorem ns_lowerChar {c : Char} (h : c ≠ '%' ∧ c ≠ '_' ∧ c ≠ '\\') :
    lowerChar c ≠ '%' ∧ lowerChar c ≠ '_' ∧ lowerChar c ≠ '\\' := by
  unfold lowerChar
  split
  case isTrue hc =>
    have ht : (Char.ofNat (c.toNat + 32)).toNat = c.toNat + 32 :=
      toNat_ofNat_char _ (by omega)
    refine ⟨?_, ?_, ?_⟩ <;> intro he <;> rw [he] at ht
    · rw [show ('%').toNat = 37 from rfl] at ht
      omega
    · rw [show ('_').toNat = 95 from rfl] at ht
      omega
    · rw [show ('\\').toNat = 92 from rfl] at ht
      omega
  case isFalse => exact h

/-- `v ILIKE '%q%'` for a metacharacter-free `q` is exactly
    case-insensitive substring containment. -/
theorem ilike_substr_iff (q v : String)
    (h : ∀ c ∈ q.data, c ≠ '%' ∧ c ≠ '_' ∧ c ≠ '\\') :
    ilike v ("%" ++ q ++ "%") = true ↔
      ∃ pre post, v.data.map lowerChar = pre ++ q.data.map lowerChar ++ post := by
  unfold ilike
  have hdata : ("%" ++ q ++ "%").data.map lowerChar
      = '%' :: (q.data.map lowerChar ++ ['%']) := by
    rw [String.data_append, String.data_append]
    rw [show ("%" : String).data = ['%'] from rfl]
    rw [List.map_append, List.map_append]
    rfl
  rw [hdata]
  exact like_match_substr (q.data.map lowerChar)
    (fun c hc => by
      rcases List.mem_map.mp hc with ⟨c0, hc0, rfl⟩
      exact ns_lowerChar (h c0 hc0)) _

/-- A record whose route name is `"abc"` and location `"zzz"`. -/
def c3rec : Record :=
  ⟨"c3", (2024, 1, 1), "gym", "zzz", "abc", "sport", "YDS", "5.9", 509,
   "complete", none, none, none⟩

/-- C3 counterexample: with `q = "a_c"` the record with route name
    `"abc"` (location `"zzz"`) is in the filtered set — the `_` acts as
    a `LIKE` single-character wildcard inside `ILIKE '%a_c%'` — even
    though `"a_c"` is not a case-insensitive substring of either field,
    refuting the claimed substring-iff characterisation. -/
theorem c3_filter_counterexample :
    filtered_of [c3rec] (some "a_c") none none none = [c3rec] ∧
    ¬(∃ pre post, ("abc" : String).data.map lowerChar =
        pre ++ ("a_c" : String).data.map lowerChar ++ post) ∧
    ¬(∃ pre post, ("zzz" : String).data.map lowerChar =
        pre ++ ("a_c" : String).data.map lowerChar ++ post) := by
  refine ⟨by decide, ?_, ?_⟩
  · rintro ⟨pre, post, h⟩
    have hlen := congrArg List.length h
    simp only [List.length_append, List.length_map] at hlen
    obtain ⟨hp, hq⟩ : pre.length = 0 ∧ post.length = 0 := by
      rw [show ("abc" : String).data.length = 3 from rfl,
        show ("a_c" : String).data.length = 3 from rfl] at hlen
      omega
    rw [List.length_eq_zero.mp hp, List.length_eq_zero.mp hq,
      List.nil_append, List.append_nil] at h
    exact absurd h (by decide)
  · rintro ⟨pre, post, h⟩
    have hlen := congrArg List.length h
    simp only [List.length_append, List.length_map] at hlen
    obtain ⟨hp, hq⟩ : pre.length = 0 ∧ post.length = 0 := by
      rw [show ("zzz" : String).data.length = 3 from rfl,
        show ("a_c" : String).data.length = 3 from rfl] at hlen
      omega
    rw [List.length_eq_zero.mp hp, List.length_eq_zero.mp hq,
      List.nil_append, List.append_nil] at h
    exact absurd h (by decide)

/-- C3 (amended): a record is in the filtered set iff it satisfies
    every provided criterion, where set-valued criteria are membership
    tests, an absent criterion imposes no constraint, and — provided
    the free text `q` contains no `LIKE` metacharacter `%`, `_` or
    `\` — `q` matches iff it is a case-insensitive substring of the
    route name or the location.  (For `q` containing metacharacters the
    match is `ILIKE` wildcard matching instead, see the
    counterexample.) -/
theorem c3_filter_amended :
    ∀ (store : List Record) (qArg envArg typeArg progArg : Option String)
      (r : Record),
      (∀ c ∈ (query_q qArg).data, c ≠ '%' ∧ c ≠ '_' ∧ c ≠ '\\') →
      (r ∈ filtered_of store qArg envArg typeArg progArg ↔
        r ∈ store ∧
        (query_q qArg = "" ∨
          (∃ pre post, r.route_name.data.map lowerChar =
            pre ++ (query_q qArg).data.map lowerChar ++ post) ∨
          (∃ pre post, r.location.data.map lowerChar =
            pre ++ (query_q qArg).data.map lowerChar ++ post)) ∧
        (_parse_csv envArg = [] ∨ r.environment ∈ _parse_csv envArg) ∧
        (_parse_csv typeArg = [] ∨ r.climb_type ∈ _parse_csv typeArg) ∧
        (_parse_csv progArg = [] ∨ r.progress ∈ _parse_csv progArg)) := by
  intro store qArg envArg typeArg progArg r h
  unfold filtered_of
  rw [List.mem_filter]
  refine and_congr_right (fun _ => ?_)
  unfold matches_where
  rw [Bool.and_eq_true, Bool.and_eq_true, Bool.and_eq_true]
  have hA : (decide (query_q qArg = "") ||
      (ilike r.route_name ("%" ++ query_q qArg ++ "%") ||
       ilike r.location ("%" ++ query_q qArg ++ "%"))) = true ↔
      (query_q qArg = "" ∨
        (∃ pre post, r.route_name.data.map lowerChar =
          pre ++ (query_q qArg).data.map lowerChar ++ post) ∨
        (∃ pre post, r.location.data.map lowerChar =
          pre ++ (query_q qArg).data.map lowerChar ++ post)) := by
    rw [Bool.or_eq_true_iff, Bool.or_eq_true_iff]
    exact or_congr (Iff.of_eq decide_eq_true_eq)
      (or_congr (ilike_substr_iff (query_q qArg) r.route_name h)
        (ilike_substr_iff (query_q qArg) r.location h))
  have hB : ∀ (l : List String) (x : String),
      (decide (l = []) || l.contains x) = true ↔ (l = [] ∨ x ∈ l) := by
    intro l x
    simp
  constructor
  · rintro ⟨⟨⟨h1, h2⟩, h3⟩, h4⟩
    exact ⟨hA.mp h1, (hB _ _).mp h2, (hB _ _).mp h3, (hB _ _).mp h4⟩
  · rintro ⟨h1, h2, h3, h4⟩
    exact ⟨⟨⟨hA.mpr h1, (hB _ _).mpr h2⟩, (hB _ _).mpr h3⟩, (hB _ _).mpr h4⟩

/-- C3 witness: the amended characterisation applied at `q = "abc"`
    (no metacharacters), showing membership of the `"abc"` record via
    the substring decomposition. -/
theorem c3_filter_amended_witness :
    c3rec ∈ filtered_of [c3rec] (some "abc") none none none :=
  (c3_filter_amended [c3rec] (some "abc") none none none c3rec (by decide)).mpr
    ⟨by decide, Or.inr (Or.inl ⟨[], [], by decide⟩), Or.inl (by decide),
     Or.inl (by decide), Or.inl (by decide)⟩

/- ### Claim C10: frame property of PUT updates -/

/-- C10: on a successful update, for any store row matching the id —
    (a) with no uploaded image and a non-truthy `removeImage`, the
    image columns are untouched while all mutable fields are replaced
    from the payload (`grade_key` recomputed) and `id` is unchanged;
    (b) with a truthy `removeImage`, the three image columns become
    NULL even if a file was uploaded in the same request.  Rows with
    other ids are untouched. -/
theorem c10_update_frame :
    ∀ (today : Date3) (store store' : List Record) (log_id : String)
      (p : Payload) (removeImageArg : Option String) (img : Option ImgFile)
      (r : Record),
      r ∈ store →
      ((parse_remove_image removeImageArg = false →
        update_log today store log_id p removeImageArg none false = .ok store' →
        ∃ r' ∈ store',
          (r.id ≠ log_id → r' = r) ∧
          (r.id = log_id →
            r'.image_data = r.image_data ∧ r'.image_mime = r.image_mime ∧
            r'.image_filename = r.image_filename ∧ r'.id = r.id ∧
            r'.date = (parse_date (pyStrip p.date)).getD (0, 0, 0) ∧
            r'.environment = pyStrip p.environment ∧
            r'.location = pyStrip p.location ∧
            r'.route_name = pyStrip p.routeName ∧
            r'.climb_type = pyStrip p.climbType ∧
            r'.grade_system = pyStrip p.gradeSystem ∧
            r'.grade = pyStrip p.grade ∧
            r'.grade_key = _grade_key (pyStrip p.gradeSystem) (pyStrip p.grade) ∧
            r'.progress = pyStrip p.progress))
       ∧ (parse_remove_image removeImageArg = true →
        update_log today store log_id p removeImageArg img false = .ok store' →
        ∃ r' ∈ store',
          (r.id ≠ log_id → r' = r) ∧
          (r.id = log_id →
            r'.id = r.id ∧ r'.image_data = none ∧ r'.image_mime = none ∧
            r'.image_filename = none))) := by
  intro today store store' log_id p removeImageArg img r hr
  constructor
  · intro hrm hok
    unfold update_log at hok
    dsimp only at hok
    split at hok
    case isTrue => exact absurd hok (by simp)
    case isFalse =>
      split at hok
      case isTrue => exact absurd hok (by simp)
      case isFalse =>
        injection hok with hok
        refine ⟨if r.id = log_id then
            apply_update p (parse_remove_image removeImageArg) none r else r,
          ?_, ?_, ?_⟩
        · rw [← hok]
          exact List.mem_map_of_mem _ hr
        · intro hne
          rw [if_neg hne]
        · intro heq
          rw [if_pos heq, hrm]
          unfold apply_update
          rw [if_neg (by simp)]
          exact ⟨rfl, rfl, rfl, rfl, rfl, rfl, rfl, rfl, rfl, rfl, rfl, rfl,
            rfl⟩
  · intro hrm hok
    unfold update_log at hok
    dsimp only at hok
    split at hok
    case isTrue => exact absurd hok (by simp)
    case isFalse =>
      split at hok
      case isTrue => exact absurd hok (by simp)
      case isFalse =>
        injection hok with hok
        refine ⟨if r.id = log_id then
            apply_update p (parse_remove_image removeImageArg) img r else r,
          ?_, ?_, ?_⟩
        · rw [← hok]
          exact List.mem_map_of_mem _ hr
        · intro hne
          rw [if_neg hne]
        · intro heq
          rw [if_pos heq, hrm]
          unfold apply_update
          rw [if_pos rfl]
          exact ⟨rfl, rfl, rfl, rfl⟩

/-- A stored row with an attached image, target of the witness update. -/
def recU : Record :=
  ⟨"u1", (2023, 5, 5), "outdoor", "old", "oldroute", "sport", "YDS", "5.9", 509,
   "incomplete", some [1, 2], some "image/png", some "a.png"⟩

/-- A valid boulder payload for the witness update. -/
def c10pay : Payload :=
  ⟨"2024-01-02", "gym", "x", "y", "boulder", "V", "V5", "complete"⟩

/-- The row after the witness update without image changes. -/
def recUafter : Record :=
  ⟨"u1", (2024, 1, 2), "gym", "x", "y", "boulder", "V", "V5", 5,
   "complete", some [1, 2], some "image/png", some "a.png"⟩

/-- The row after the witness update with `removeImage=true`. -/
def recUremoved : Record :=
  ⟨"u1", (2024, 1, 2), "gym", "x", "y", "boulder", "V", "V5", 5,
   "complete", none, none, none⟩

/-- C10 witness: the frame theorem applied to a concrete store of one
    record with an attached image — once without image input (image
    columns preserved, mutable fields replaced) and once with a truthy
    `removeImage` plus a simultaneous upload (image columns nulled). -/
theorem c10_update_frame_witness :
    (∃ r' ∈ [recUafter],
      (recU.id ≠ "u1" → r' = recU) ∧
      (recU.id = "u1" →
        r'.image_data = recU.image_data ∧ r'.image_mime = recU.image_mime ∧
        r'.image_filename = recU.image_filename ∧ r'.id = recU.id ∧
        r'.date = (parse_date (pyStrip c10pay.date)).getD (0, 0, 0) ∧
        r'.environment = pyStrip c10pay.environment ∧
        r'.location = pyStrip c10pay.location ∧
        r'.route_name = pyStrip c10pay.routeName ∧
        r'.climb_type = pyStrip c10pay.climbType ∧
        r'.grade_system = pyStrip c10pay.gradeSystem ∧
        r'.grade = pyStrip c10pay.grade ∧
        r'.grade_key = _grade_key (pyStrip c10pay.gradeSystem)
          (pyStrip c10pay.grade) ∧
        r'.progress = pyStrip c10pay.progress)) ∧
    (∃ r' ∈ [recUremoved],
      (recU.id ≠ "u1" → r' = recU) ∧
      (recU.id = "u1" →
        r'.id = recU.id ∧ r'.image_data = none ∧ r'.image_mime = none ∧
        r'.image_filename = none)) :=
  ⟨(c10_update_frame (2026, 10, 12) [recU] [recUafter] "u1" c10pay none none
      recU (by decide)).1 (by decide) rfl,
   (c10_update_frame (2026, 10, 12) [recU] [recUremoved] "u1" c10pay
      (some "true") (some ([9], "image/png", "b.png")) recU (by decide)).2
      (by decide) rfl⟩
